import Mathlib

/-!
Verification of the session-driven deletion controller in
`facebook_timeline_cleanup.py` (class `FacebookCleaner`).

The embedding models the statistics dictionary, the per-item deletion
attempt (`attempt_post_deletion`), page scanning with deduplication
(`find_posts_on_page`), the per-session batch (`delete_posts_batch`),
the session loop (`clean_profile_gradually`), final statistics
(`get_final_stats`), pacing (`human_like_delay`, built on CPython's
`random.uniform(a, b) = a + (b - a) * random()`), and configuration
validation (`validate_config`).

Interaction with the browser is modelled by an environment: each scanned
element carries an `ItemBehavior` describing how the page responds to the
deletion attempt (which targets are locatable, whether the automation
engine raises, and whether the item actually disappears), and the attempt
emits the list of engine interactions it performed, so that claims about
what simulation mode does and does not do to the page are statable.
-/

namespace FacebookTimelineCleanup

/-- The mutable statistics dictionary `self.stats` (counter part). -/
structure Stats where
  posts_found : Nat
  posts_deleted : Nat
  posts_skipped : Nat
  errors_encountered : Nat
  sessions_completed : Nat
deriving DecidableEq, Repr

/-- The statistics as initialized in `__init__` (all counters zero). -/
def initStats : Stats := ⟨0, 0, 0, 0, 0⟩

/-- Sum of the three per-attempt outcome counters. -/
def outc (s : Stats) : Nat :=
  s.posts_deleted + s.posts_skipped + s.errors_encountered

/-- Stage of `attempt_post_deletion` at which the automation engine raises
an unexpected exception (caught by the method's outer `except`), if any. -/
inductive FaultStage
  | noFault
  | atScroll
  | atMenuClick
  | atDeleteClick
  | atConfirmClick
deriving DecidableEq, Repr

/-- How the page responds to one item's deletion attempt: whether each
semantic target (options menu, delete option, confirm button) is locatable,
at which stage (if any) the engine raises, and whether the item actually
disappears after the delete trigger.  The last field is observable page
state that `attempt_post_deletion` never reads. -/
structure ItemBehavior where
  menuFound : Bool
  deleteFound : Bool
  confirmFound : Bool
  fault : FaultStage
  itemGoneAfterDelete : Bool
deriving DecidableEq, Repr

/-- Engine interactions that `attempt_post_deletion` can perform on the
page: the `scrollIntoView` script (line 458), reading the item's text and
timestamp in `extract_post_info` (line 462), and the three click actions
(menu line 494, delete option line 523, confirm button line 547). -/
inductive EngineAction
  | scrollIntoView
  | readInfo
  | clickMenu
  | clickDelete
  | clickConfirm
deriving DecidableEq, Repr

/-- Whether an engine interaction is one of the mutating action primitives
(a click on the menu, delete, or confirm target). -/
def is_mutating : EngineAction → Bool
  | EngineAction.clickMenu => true
  | EngineAction.clickDelete => true
  | EngineAction.clickConfirm => true
  | _ => false

/-- One element returned by a page scan: its `data-testid` attribute, its
`id` attribute (each `none` when absent), its visible text, and how the
page will respond to a deletion attempt on it. -/
structure ScannedItem where
  testid : Option String
  domid : Option String
  text : String
  behavior : ItemBehavior
deriving DecidableEq, Repr

/-- Python `or` on an attribute value: `None` and the empty string are
falsy, so they fall through to the alternative. -/
def attr_or (a : Option String) (b : String) : String :=
  match a with
  | Option.none => b
  | Option.some s => if s = "" then b else s

/-- Identity derivation in `find_posts_on_page` (line 433):
`post.get_attribute('data-testid') or post.get_attribute('id') or
str(hash(post.text[:50]))`.  Python's string hash is seeded and
implementation defined, so it is a parameter `h`. -/
def element_id (h : String → Int) (p : ScannedItem) : String :=
  attr_or p.testid (attr_or p.domid (toString (h (p.text.take 50))))

/-- The deduplication loop of `find_posts_on_page` (lines 429-436): keep a
set of seen identities, append an element only when its identity is new. -/
def dedupe_aux (h : String → Int) (seen : List String) :
    List ScannedItem → List ScannedItem
  | [] => []
  | p :: rest =>
    if element_id h p ∈ seen then dedupe_aux h seen rest
    else p :: dedupe_aux h (element_id h p :: seen) rest

/-- `find_posts_on_page` (lines 396-441): the raw list is whatever the
first successful selector returned; duplicates are removed preserving
order and `posts_found` is incremented by the number of unique posts. -/
def find_posts_on_page (h : String → Int) (raw : List ScannedItem)
    (s : Stats) : List ScannedItem × Stats :=
  let u := dedupe_aux h [] raw
  (u, { s with posts_found := s.posts_found + u.length })

/-- `attempt_post_deletion` (lines 443-561) on one item.  Returns the
updated statistics, the boolean result, and the list of engine
interactions performed, in order.  Mirrors the source's control flow:
scroll into view and extract info (before the whatif check), then in real
mode locate/click the menu, locate/click the delete option, and
locate/click the confirm button; every missing target increments
`posts_skipped`, a triggered engine exception is caught by the outer
`except` and increments `errors_encountered`, and each path increments
exactly one counter before returning. -/
def attempt_post_deletion (whatif : Bool) (b : ItemBehavior) (s : Stats) :
    Stats × Bool × List EngineAction :=
  if b.fault = FaultStage.atScroll then
    ({ s with errors_encountered := s.errors_encountered + 1 }, false,
      [EngineAction.scrollIntoView])
  else
    let tr0 := [EngineAction.scrollIntoView, EngineAction.readInfo]
    if whatif then
      ({ s with posts_deleted := s.posts_deleted + 1 }, true, tr0)
    else if !b.menuFound then
      ({ s with posts_skipped := s.posts_skipped + 1 }, false, tr0)
    else if b.fault = FaultStage.atMenuClick then
      ({ s with errors_encountered := s.errors_encountered + 1 }, false,
        tr0 ++ [EngineAction.clickMenu])
    else if !b.deleteFound then
      ({ s with posts_skipped := s.posts_skipped + 1 }, false,
        tr0 ++ [EngineAction.clickMenu])
    else if b.fault = FaultStage.atDeleteClick then
      ({ s with errors_encountered := s.errors_encountered + 1 }, false,
        tr0 ++ [EngineAction.clickMenu, EngineAction.clickDelete])
    else if b.confirmFound then
      if b.fault = FaultStage.atConfirmClick then
        ({ s with errors_encountered := s.errors_encountered + 1 }, false,
          tr0 ++ [EngineAction.clickMenu, EngineAction.clickDelete,
            EngineAction.clickConfirm])
      else
        ({ s with posts_deleted := s.posts_deleted + 1 }, true,
          tr0 ++ [EngineAction.clickMenu, EngineAction.clickDelete,
            EngineAction.clickConfirm])
    else
      ({ s with posts_skipped := s.posts_skipped + 1 }, false,
        tr0 ++ [EngineAction.clickMenu, EngineAction.clickDelete])

/-- Whether the engine fault recorded in `b` is actually reached by
`attempt_post_deletion` (the scroll always runs; the clicks only run in
real mode once the corresponding target was found). -/
def faultTriggered (whatif : Bool) (b : ItemBehavior) : Bool :=
  match b.fault with
  | FaultStage.noFault => false
  | FaultStage.atScroll => true
  | FaultStage.atMenuClick => !whatif && b.menuFound
  | FaultStage.atDeleteClick => !whatif && b.menuFound && b.deleteFound
  | FaultStage.atConfirmClick =>
      !whatif && b.menuFound && b.deleteFound && b.confirmFound

/-- The per-item loop of `delete_posts_batch` (lines 625-649): attempt
each post in order, counting successes.  Returns the deleted count, the
final statistics, and the list of statistics states after each attempt. -/
def process_posts (whatif : Bool) :
    List ScannedItem → Stats → Nat × Stats × List Stats
  | [], s => (0, s, [])
  | p :: rest, s =>
    let r := attempt_post_deletion whatif p.behavior s
    let next := process_posts whatif rest r.1
    ((if r.2.1 then 1 else 0) + next.1, next.2.1, r.1 :: next.2.2)

/-- `delete_posts_batch` (lines 599-652): scan the page, return 0 when no
posts were found, otherwise process the first `max_posts` unique posts.
The statistics trace starts with the state right after `posts_found` was
updated. -/
def delete_posts_batch (whatif : Bool) (h : String → Int)
    (raw : List ScannedItem) (max_posts : Nat) (s : Stats) :
    Nat × Stats × List Stats :=
  let fp := find_posts_on_page h raw s
  if fp.1.isEmpty then (0, fp.2, [fp.2])
  else
    let pr := process_posts whatif (fp.1.take max_posts) fp.2
    (pr.1, pr.2.1, fp.2 :: pr.2.2)

/-- The session loop of `clean_profile_gradually` (lines 678-716), with
the remaining session count as fuel and the current session index.  Each
iteration runs one batch, increments `sessions_completed`, and breaks when
the batch deleted nothing.  Returns the final statistics, the list of
per-session deleted counts (one entry per session actually executed), and
the chronological trace of statistics states. -/
def session_loop (whatif : Bool) (h : String → Int)
    (pages : Nat → List ScannedItem) (pps : Nat) :
    Nat → Nat → Stats → Stats × List Nat × List Stats
  | 0, _, s => (s, [], [])
  | fuel + 1, idx, s =>
    let b := delete_posts_batch whatif h (pages idx) pps s
    let s2 := { b.2.1 with sessions_completed := b.2.1.sessions_completed + 1 }
    if b.1 = 0 then (s2, [b.1], b.2.2 ++ [s2])
    else
      let rest := session_loop whatif h pages pps fuel (idx + 1) s2
      (rest.1, b.1 :: rest.2.1, b.2.2 ++ s2 :: rest.2.2)

/-- `clean_profile_gradually` (lines 654-719): starting from the freshly
initialized statistics, stop immediately when login or the navigation to
the activity log fails, otherwise run the session loop for at most
`max_sessions` sessions.  `loginOk` and `navOk` are the results of the
external `login()` and `navigate_to_activity_log()` calls; `pages idx` is
what the page scan of session `idx` returns. -/
def clean_profile_gradually (whatif loginOk navOk : Bool)
    (h : String → Int) (pages : Nat → List ScannedItem)
    (max_sessions pps : Nat) : Stats × List Nat × List Stats :=
  if !loginOk then (initStats, [], [])
  else if !navOk then (initStats, [], [])
  else session_loop whatif h pages pps max_sessions 0 initStats

/-- The snapshot produced by `get_final_stats` (lines 721-739): the
counters plus the run duration in seconds and the derived
`posts_per_minute` rate. -/
structure FinalStats where
  base : Stats
  duration_seconds : ℚ
  posts_per_minute : ℚ
deriving DecidableEq, Repr

/-- `get_final_stats` (lines 721-739): `posts_per_minute` is
`posts_deleted / (duration_seconds / 60)` when the duration is positive
and `0` otherwise. -/
def get_final_stats (s : Stats) (duration_seconds : ℚ) : FinalStats :=
  { base := s
    duration_seconds := duration_seconds
    posts_per_minute :=
      if duration_seconds > 0 then
        (s.posts_deleted : ℚ) / (duration_seconds / 60)
      else 0 }

/-- CPython's `random.uniform(a, b)`, which computes
`a + (b - a) * random()` with `random()` drawn from `[0, 1)`.  The draw
`u` is a parameter of the model. -/
def py_uniform (a b u : ℚ) : ℚ := a + (b - a) * u

/-- The configuration after `merge_config_with_args`, flattened.  Delay
fields are rationals (Python floats), count fields are integers (argparse
`type=int` admits negative values). -/
structure Config where
  email : String
  password : String
  whatif : Bool
  verbose : Bool
  max_sessions : Int
  posts_per_session : Int
  session_delay : Int
  page_timeout : Int
  min_action_delay : ℚ
  max_action_delay : ℚ
  min_delete_delay : ℚ
  max_delete_delay : ℚ
deriving DecidableEq, Repr

/-- `human_like_delay` (lines 147-165): default each missing bound from
the configuration, then sleep for `random.uniform(min_delay, max_delay)`.
The returned value is the duration slept. -/
def human_like_delay (cfg : Config) (min_delay max_delay : Option ℚ)
    (u : ℚ) : ℚ :=
  py_uniform (min_delay.getD cfg.min_action_delay)
    (max_delay.getD cfg.max_action_delay) u

/-- `validate_config` (lines 985-1016), checks in source order: email
present; password present unless whatif; `max_sessions > 0`;
`posts_per_session > 0`; `session_delay ≥ 0`; and
`min_action_delay ≤ max_action_delay`. -/
def validate_config (c : Config) : Bool × String :=
  if c.email = "" then
    (false, "Email missing. Use --email or specify in configuration file.")
  else if c.password = "" && !c.whatif then
    (false, "Password missing for real mode. Use --password or --whatif for testing.")
  else if c.max_sessions ≤ 0 then
    (false, "Number of sessions must be greater than 0.")
  else if c.posts_per_session ≤ 0 then
    (false, "Number of posts per session must be greater than 0.")
  else if c.session_delay < 0 then
    (false, "Session delay cannot be negative.")
  else if c.min_action_delay > c.max_action_delay then
    (false, "Minimum delay cannot be greater than maximum delay.")
  else (true, "Configuration valid")

/-- Concrete hash used for closed evaluations. -/
def exHash : String → Int := fun _ => 0

/-- A scanned item whose deletion attempt fully succeeds in real mode. -/
def exItem : ScannedItem :=
  ⟨Option.some "t1", Option.none, "hello",
    ⟨true, true, true, FaultStage.noFault, false⟩⟩

/-- A run environment whose first page scan yields one deletable item and
whose later scans yield nothing. -/
def exPages : Nat → List ScannedItem :=
  fun i => if i = 0 then [exItem] else []

/-- A configuration passing every check of `validate_config` whose delete
delay bounds are inverted (`min_delete_delay > max_delete_delay`). -/
def exConfigBadDelete : Config :=
  ⟨"user@example.com", "pw", false, false, 5, 10, 300, 30, 1, 3, 7, 3⟩

/-- A configuration whose action delay bounds are inverted
(`min_action_delay > max_action_delay`). -/
def exConfigBadAction : Config :=
  ⟨"user@example.com", "pw", false, false, 5, 10, 300, 30, 5, 2, 3, 7⟩

/-- A second scanned item carrying the same `data-testid` as `exItem`, so
the two derive the same identity and deduplication drops this one. -/
def dupItem : ScannedItem :=
  ⟨Option.some "t1", Option.none, "world",
    ⟨true, true, true, FaultStage.noFault, false⟩⟩

/-- The statistics invariant: the outcome counters never exceed the number
of items counted as found. -/
def stats_inv (s : Stats) : Prop := outc s ≤ s.posts_found

lemma outc_bump (x : Stats) (n : Nat) :
    outc { x with sessions_completed := n } = outc x := rfl

lemma found_bump (x : Stats) (n : Nat) :
    ({ x with sessions_completed := n } : Stats).posts_found = x.posts_found := rfl

lemma sessions_bump (x : Stats) (n : Nat) :
    ({ x with sessions_completed := n } : Stats).sessions_completed = n := rfl

lemma stats_inv_bump (x : Stats) (n : Nat) (hx : stats_inv x) :
    stats_inv { x with sessions_completed := n } := hx

lemma attempt_effect (w : Bool) (b : ItemBehavior) (s : Stats) :
    (attempt_post_deletion w b s).1.posts_found = s.posts_found ∧
    (attempt_post_deletion w b s).1.sessions_completed = s.sessions_completed ∧
    outc (attempt_post_deletion w b s).1 = outc s + 1 ∧
    s.posts_deleted ≤ (attempt_post_deletion w b s).1.posts_deleted ∧
    s.posts_skipped ≤ (attempt_post_deletion w b s).1.posts_skipped ∧
    s.errors_encountered ≤ (attempt_post_deletion w b s).1.errors_encountered := by
  rcases s with ⟨f, d, k, e, c⟩
  unfold attempt_post_deletion outc
  split_ifs <;> simp <;> omega

lemma process_posts_spec (w : Bool) (l : List ScannedItem) (s : Stats) :
    (process_posts w l s).2.1.posts_found = s.posts_found ∧
    (process_posts w l s).2.1.sessions_completed = s.sessions_completed ∧
    outc (process_posts w l s).2.1 ≤ outc s + l.length ∧
    ∀ t ∈ (process_posts w l s).2.2,
      t.posts_found = s.posts_found ∧ outc t ≤ outc s + l.length := by
  induction l generalizing s with
  | nil => simp [process_posts]
  | cons p rest ih =>
    obtain ⟨af, ac, ao, _⟩ := attempt_effect w p.behavior s
    obtain ⟨hf, hc, ho, htr⟩ := ih (attempt_post_deletion w p.behavior s).1
    simp only [process_posts, List.length_cons, List.mem_cons]
    refine ⟨by rw [hf, af], by rw [hc, ac], by omega, ?_⟩
    rintro t (rfl | ht)
    · exact ⟨af, by omega⟩
    · obtain ⟨h1, h2⟩ := htr t ht
      exact ⟨by rw [h1, af], by omega⟩

lemma process_posts_trace_length (w : Bool) (l : List ScannedItem) (s : Stats) :
    (process_posts w l s).2.2.length = l.length := by
  induction l generalizing s with
  | nil => simp [process_posts]
  | cons p rest ih => simp [process_posts, ih]

lemma delete_posts_batch_spec (w : Bool) (h : String → Int)
    (raw : List ScannedItem) (mp : Nat) (s : Stats) :
    (delete_posts_batch w h raw mp s).2.1.posts_found
        = s.posts_found + (dedupe_aux h [] raw).length ∧
    (delete_posts_batch w h raw mp s).2.1.sessions_completed
        = s.sessions_completed ∧
    outc (delete_posts_batch w h raw mp s).2.1
        ≤ outc s + (dedupe_aux h [] raw).length ∧
    ∀ t ∈ (delete_posts_batch w h raw mp s).2.2,
      t.posts_found = s.posts_found + (dedupe_aux h [] raw).length ∧
      outc t ≤ outc s + (dedupe_aux h [] raw).length := by
  obtain ⟨pf, pc, po, ptr⟩ := process_posts_spec w ((dedupe_aux h [] raw).take mp)
    { s with posts_found := s.posts_found + (dedupe_aux h [] raw).length }
  have hs1f : ({ s with posts_found := s.posts_found + (dedupe_aux h [] raw).length }
      : Stats).posts_found = s.posts_found + (dedupe_aux h [] raw).length := rfl
  have hs1o : outc { s with posts_found := s.posts_found + (dedupe_aux h [] raw).length }
      = outc s := rfl
  have hs1c : ({ s with posts_found := s.posts_found + (dedupe_aux h [] raw).length }
      : Stats).sessions_completed = s.sessions_completed := rfl
  have hlen : ((dedupe_aux h [] raw).take mp).length ≤ (dedupe_aux h [] raw).length := by
    simp [List.length_take]
  unfold delete_posts_batch find_posts_on_page
  by_cases he : (dedupe_aux h [] raw).isEmpty
  · simp only [he, if_pos, List.mem_singleton, outc] at *
    refine ⟨trivial, trivial, by omega, ?_⟩
    rintro t rfl
    refine ⟨rfl, ?_⟩
    dsimp only
    omega
  · simp only [he, Bool.false_eq_true, if_false, List.mem_cons, outc] at *
    refine ⟨by omega, by omega, by omega, ?_⟩
    rintro t (rfl | ht)
    · refine ⟨rfl, ?_⟩
      dsimp only
      omega
    · obtain ⟨h1, h2⟩ := ptr t ht
      constructor <;> omega

lemma session_loop_inv (w : Bool) (h : String → Int)
    (pages : Nat → List ScannedItem) (pps : Nat) :
    ∀ (fuel idx : Nat) (s : Stats), stats_inv s →
      stats_inv (session_loop w h pages pps fuel idx s).1 ∧
      ∀ t ∈ (session_loop w h pages pps fuel idx s).2.2, stats_inv t := by
  intro fuel
  induction fuel with
  | zero => intro idx s hs; simpa [session_loop] using hs
  | succ n ih =>
    intro idx s hs
    obtain ⟨bf, bc, bo, btr⟩ := delete_posts_batch_spec w h (pages idx) pps s
    have hinv1 : stats_inv (delete_posts_batch w h (pages idx) pps s).2.1 := by
      unfold stats_inv at hs ⊢
      rw [bf]
      omega
    have hinv2 : stats_inv { (delete_posts_batch w h (pages idx) pps s).2.1 with
        sessions_completed :=
          (delete_posts_batch w h (pages idx) pps s).2.1.sessions_completed + 1 } :=
      stats_inv_bump _ _ hinv1
    have hinvt : ∀ t ∈ (delete_posts_batch w h (pages idx) pps s).2.2, stats_inv t := by
      intro t ht
      obtain ⟨h1, h2⟩ := btr t ht
      unfold stats_inv at hs ⊢
      rw [h1]; omega
    simp only [session_loop]
    split_ifs with hd
    · constructor
      · exact hinv2
      · intro t ht
        rcases List.mem_append.mp ht with ht1 | ht1
        · exact hinvt t ht1
        · rcases List.mem_singleton.mp ht1 with rfl
          exact hinv2
    · obtain ⟨ih1, ih2⟩ := ih (idx + 1) _ hinv2
      constructor
      · exact ih1
      · intro t ht
        rcases List.mem_append.mp ht with ht1 | ht1
        · exact hinvt t ht1
        · rcases List.mem_cons.mp ht1 with rfl | ht2
          · exact hinv2
          · exact ih2 t ht2

lemma session_loop_sessions (w : Bool) (h : String → Int)
    (pages : Nat → List ScannedItem) (pps : Nat) :
    ∀ (fuel idx : Nat) (s : Stats),
      (session_loop w h pages pps fuel idx s).1.sessions_completed
          = s.sessions_completed + (session_loop w h pages pps fuel idx s).2.1.length ∧
      ∀ i, i + 1 < (session_loop w h pages pps fuel idx s).2.1.length →
        (session_loop w h pages pps fuel idx s).2.1.getD i 0 ≠ 0 := by
  intro fuel
  induction fuel with
  | zero => intro idx s; simp [session_loop]
  | succ n ih =>
    intro idx s
    obtain ⟨bf, bc, bo, btr⟩ := delete_posts_batch_spec w h (pages idx) pps s
    simp only [session_loop]
    split_ifs with hd
    · refine ⟨?_, ?_⟩
      · dsimp only
        simp only [List.length_singleton]
        omega
      · intro i hi
        dsimp only at hi
        simp only [List.length_singleton] at hi
        omega
    · obtain ⟨ih1, ih2⟩ := ih (idx + 1)
        { (delete_posts_batch w h (pages idx) pps s).2.1 with
          sessions_completed :=
            (delete_posts_batch w h (pages idx) pps s).2.1.sessions_completed + 1 }
      dsimp only at ih1 ih2 ⊢
      refine ⟨?_, ?_⟩
      · simp only [List.length_cons]
        omega
      · intro i hi
        simp only [List.length_cons] at hi
        match i with
        | 0 => simpa using hd
        | j + 1 =>
          rw [List.getD_cons_succ]
          exact ih2 j (by omega)

lemma dedupe_aux_sublist (h : String → Int) :
    ∀ (l : List ScannedItem) (seen : List String),
      (dedupe_aux h seen l).Sublist l := by
  intro l
  induction l with
  | nil => intro seen; simp [dedupe_aux]
  | cons p rest ih =>
    intro seen
    unfold dedupe_aux
    split_ifs with hm
    · exact List.Sublist.cons p (ih seen)
    · exact List.Sublist.cons₂ p (ih (element_id h p :: seen))

lemma dedupe_aux_not_seen (h : String → Int) :
    ∀ (l : List ScannedItem) (seen : List String) (x : ScannedItem),
      x ∈ dedupe_aux h seen l → element_id h x ∉ seen := by
  intro l
  induction l with
  | nil => intro seen x hx; simp [dedupe_aux] at hx
  | cons p rest ih =>
    intro seen x hx
    unfold dedupe_aux at hx
    split_ifs at hx with hm
    · exact ih seen x hx
    · rcases List.mem_cons.mp hx with rfl | hx2
      · exact hm
      · have hns := ih _ x hx2
        intro hc
        exact hns (List.mem_cons_of_mem _ hc)

lemma dedupe_aux_pairwise (h : String → Int) :
    ∀ (l : List ScannedItem) (seen : List String),
      (dedupe_aux h seen l).Pairwise
        (fun a b => element_id h a ≠ element_id h b) := by
  intro l
  induction l with
  | nil => intro seen; simp [dedupe_aux]
  | cons p rest ih =>
    intro seen
    unfold dedupe_aux
    split_ifs with hm
    · exact ih seen
    · refine List.Pairwise.cons ?_ (ih _)
      intro x hx hc
      exact dedupe_aux_not_seen h rest _ x hx
        (by rw [← hc]; exact List.mem_cons_self _ _)

lemma find?_cons_eq (p : ScannedItem → Bool) (a : ScannedItem)
    (l : List ScannedItem) :
    List.find? p (a :: l) = if p a then some a else List.find? p l := by
  cases hp : p a <;> simp [List.find?_cons, hp]

lemma dedupe_aux_first (h : String → Int) :
    ∀ (l : List ScannedItem) (seen : List String) (x : ScannedItem),
      x ∈ dedupe_aux h seen l →
      l.find? (fun y => element_id h y == element_id h x) = some x := by
  intro l
  induction l with
  | nil => intro seen x hx; simp [dedupe_aux] at hx
  | cons p rest ih =>
    intro seen x hx
    unfold dedupe_aux at hx
    split_ifs at hx with hm
    · have hne : element_id h x ≠ element_id h p := by
        intro hc
        exact dedupe_aux_not_seen h rest seen x hx (hc ▸ hm)
      have hpx : (element_id h p == element_id h x) = false := by
        simp only [beq_eq_false_iff_ne, ne_eq]
        exact fun hc => hne hc.symm
      rw [find?_cons_eq]
      simp only [hpx, Bool.false_eq_true, if_false]
      exact ih seen x hx
    · rcases List.mem_cons.mp hx with rfl | hx2
      · rw [find?_cons_eq]
        simp
      · have hne : element_id h x ≠ element_id h p := by
          have hns := dedupe_aux_not_seen h rest _ x hx2
          intro hc
          exact hns (by rw [hc]; exact List.mem_cons_self _ _)
        have hpx : (element_id h p == element_id h x) = false := by
          simp only [beq_eq_false_iff_ne, ne_eq]
          exact fun hc => hne hc.symm
        rw [find?_cons_eq]
        simp only [hpx, Bool.false_eq_true, if_false]
        exact ih _ x hx2

lemma dedupe_aux_noop (h : String → Int) :
    ∀ (l : List ScannedItem) (seen : List String),
      (∀ x ∈ l, element_id h x ∉ seen) →
      l.Pairwise (fun a b => element_id h a ≠ element_id h b) →
      dedupe_aux h seen l = l := by
  intro l
  induction l with
  | nil => intro seen _ _; rfl
  | cons p rest ih =>
    intro seen hfresh hpw
    unfold dedupe_aux
    rw [if_neg (hfresh p (List.mem_cons_self _ _))]
    obtain ⟨hp, hpw2⟩ := List.pairwise_cons.mp hpw
    congr 1
    apply ih
    · intro x hx hc
      rcases List.mem_cons.mp hc with hc1 | hc2
      · exact hp x hx hc1.symm
      · exact hfresh x (List.mem_cons_of_mem _ hx) hc2
    · exact hpw2

lemma dedupe_aux_idem (h : String → Int) (l : List ScannedItem) :
    dedupe_aux h [] (dedupe_aux h [] l) = dedupe_aux h [] l :=
  dedupe_aux_noop h _ [] (fun x _ hc => by simp at hc)
    (dedupe_aux_pairwise h l [])

/-- C1: for every run and at every point during it, the accumulated
statistics satisfy posts_deleted + posts_skipped + errors_encountered ≤
posts_found; each deletion attempt increments exactly one of the three
outcome counters (their sum grows by exactly one and no counter ever
decreases) while leaving posts_found unchanged, so attempts are only
counted against items previously counted as found. -/
theorem C1_stats_invariant (whatif loginOk navOk : Bool) (h : String → Int)
    (pages : Nat → List ScannedItem) (ms pps : Nat) :
    (∀ (b : ItemBehavior) (s : Stats),
        outc (attempt_post_deletion whatif b s).1 = outc s + 1 ∧
        (attempt_post_deletion whatif b s).1.posts_found = s.posts_found ∧
        s.posts_deleted ≤ (attempt_post_deletion whatif b s).1.posts_deleted ∧
        s.posts_skipped ≤ (attempt_post_deletion whatif b s).1.posts_skipped ∧
        s.errors_encountered
          ≤ (attempt_post_deletion whatif b s).1.errors_encountered) ∧
    (∀ t ∈ (clean_profile_gradually whatif loginOk navOk h pages ms pps).2.2,
        t.posts_deleted + t.posts_skipped + t.errors_encountered
          ≤ t.posts_found) ∧
    ((clean_profile_gradually whatif loginOk navOk h pages ms pps).1.posts_deleted
        + (clean_profile_gradually whatif loginOk navOk h pages ms pps).1.posts_skipped
        + (clean_profile_gradually whatif loginOk navOk h pages ms pps).1.errors_encountered
      ≤ (clean_profile_gradually whatif loginOk navOk h pages ms pps).1.posts_found) := by
  have key : stats_inv (clean_profile_gradually whatif loginOk navOk h pages ms pps).1 ∧
      ∀ t ∈ (clean_profile_gradually whatif loginOk navOk h pages ms pps).2.2,
        stats_inv t := by
    unfold clean_profile_gradually
    split_ifs
    · exact ⟨Nat.le.refl, by simp⟩
    · exact ⟨Nat.le.refl, by simp⟩
    · obtain ⟨k1, k2⟩ :=
        session_loop_inv whatif h pages pps ms 0 initStats Nat.le.refl
      exact ⟨k1, k2⟩
  refine ⟨?_, ?_, ?_⟩
  · intro b s
    obtain ⟨a1, a2, a3, a4, a5, a6⟩ := attempt_effect whatif b s
    exact ⟨a3, a1, a4, a5, a6⟩
  · intro t ht
    simpa [stats_inv, outc] using key.2 t ht
  · simpa [stats_inv, outc] using key.1

/-- C1 witness: the trace invariant applied to a concrete two-session run
at the statistics state reached right after the first page scan. -/
theorem C1_stats_invariant_witness :
    (⟨1, 0, 0, 0, 0⟩ : Stats) ∈
      (clean_profile_gradually false true true exHash exPages 3 10).2.2 ∧
    (⟨1, 0, 0, 0, 0⟩ : Stats).posts_deleted
        + (⟨1, 0, 0, 0, 0⟩ : Stats).posts_skipped
        + (⟨1, 0, 0, 0, 0⟩ : Stats).errors_encountered
      ≤ (⟨1, 0, 0, 0, 0⟩ : Stats).posts_found :=
  ⟨by decide,
    (C1_stats_invariant false true true exHash exPages 3 10).2.1
      ⟨1, 0, 0, 0, 0⟩ (by decide)⟩

/-- C2 counterexample: in whatif mode the attempt does touch the page
before short-circuiting — it scrolls the item into view (and reads its
text), so its engine-interaction trace is nonempty, contrary to the
claim that simulation does not touch the page. -/
theorem C2_counterexample :
    EngineAction.scrollIntoView ∈
      (attempt_post_deletion true
        ⟨true, true, true, FaultStage.noFault, false⟩ initStats).2.2 ∧
    (attempt_post_deletion true
        ⟨true, true, true, FaultStage.noFault, false⟩ initStats).2.2 ≠ [] := by
  decide

/-- C2 amended: when whatif is active and the engine does not fault during
the initial scroll, the attempt performs no mutating action primitive (no
click on the menu, delete, or confirm targets — its only page interactions
are the scroll into view and the read-only info extraction), increments
posts_deleted by exactly one, and reports success. -/
theorem C2_whatif_no_mutation (b : ItemBehavior) (s : Stats)
    (hf : b.fault ≠ FaultStage.atScroll) :
    (attempt_post_deletion true b s).1
        = { s with posts_deleted := s.posts_deleted + 1 } ∧
    (attempt_post_deletion true b s).2.1 = true ∧
    (attempt_post_deletion true b s).2.2
        = [EngineAction.scrollIntoView, EngineAction.readInfo] ∧
    ∀ a ∈ (attempt_post_deletion true b s).2.2, is_mutating a = false := by
  unfold attempt_post_deletion
  rw [if_neg hf]
  simp [is_mutating]

/-- C2 witness: the amended theorem applied to a concrete item. -/
theorem C2_whatif_no_mutation_witness :
    (⟨true, true, true, FaultStage.noFault, false⟩ : ItemBehavior).fault
        ≠ FaultStage.atScroll ∧
    (attempt_post_deletion true
        ⟨true, true, true, FaultStage.noFault, false⟩ initStats).2.1 = true :=
  ⟨by decide,
    (C2_whatif_no_mutation ⟨true, true, true, FaultStage.noFault, false⟩
      initStats (by decide)).2.1⟩

/-- C3 counterexample: in real mode, with the delete action triggered and
no confirmation control present, the code skips the item even though the
post-condition the claim describes holds (the item is in fact gone after
the delete trigger): the outcome is Skipped, never Deleted, because
attempt_post_deletion performs no post-condition check at all. -/
theorem C3_counterexample :
    (⟨true, true, false, FaultStage.noFault, true⟩
        : ItemBehavior).itemGoneAfterDelete = true ∧
    (attempt_post_deletion false
        ⟨true, true, false, FaultStage.noFault, true⟩ initStats).1.posts_deleted = 0 ∧
    (attempt_post_deletion false
        ⟨true, true, false, FaultStage.noFault, true⟩ initStats).1.posts_skipped = 1 ∧
    (attempt_post_deletion false
        ⟨true, true, false, FaultStage.noFault, true⟩ initStats).2.1 = false := by
  decide

/-- C3 amended: in real mode, when the menu and delete targets are found
but no confirmation control can be located (and the engine does not
fault), the outcome is always Skipped — posts_skipped is incremented and
the attempt reports failure; no post-condition check is consulted. -/
theorem C3_confirm_missing_always_skips (b : ItemBehavior) (s : Stats)
    (hm : b.menuFound = true) (hd : b.deleteFound = true)
    (hc : b.confirmFound = false) (hf : faultTriggered false b = false) :
    (attempt_post_deletion false b s).1
        = { s with posts_skipped := s.posts_skipped + 1 } ∧
    (attempt_post_deletion false b s).2.1 = false := by
  rcases b with ⟨mf, df, cf, fault, gone⟩
  cases fault <;> simp_all [faultTriggered, attempt_post_deletion]

/-- C3 witness: the amended theorem applied to a concrete item. -/
theorem C3_confirm_missing_witness :
    ((⟨true, true, false, FaultStage.noFault, false⟩ : ItemBehavior).menuFound = true ∧
      (⟨true, true, false, FaultStage.noFault, false⟩ : ItemBehavior).deleteFound = true ∧
      (⟨true, true, false, FaultStage.noFault, false⟩ : ItemBehavior).confirmFound = false ∧
      faultTriggered false ⟨true, true, false, FaultStage.noFault, false⟩ = false) ∧
    (attempt_post_deletion false
        ⟨true, true, false, FaultStage.noFault, false⟩ initStats).2.1 = false :=
  ⟨⟨rfl, rfl, rfl, by decide⟩,
    (C3_confirm_missing_always_skips
      ⟨true, true, false, FaultStage.noFault, false⟩ initStats
      rfl rfl rfl (by decide)).2⟩

/-- C4: in every run, a session that deleted zero posts is the last
session executed (every non-final entry of the per-session deleted-count
list is nonzero) and sessions_completed counts exactly the sessions
executed; in particular, in a concrete run with max_sessions = 3 whose
second scan yields no deletions, only sessions 1 and 2 run and the final
sessions_completed is 2. -/
theorem C4_zero_session_is_last (whatif loginOk navOk : Bool)
    (h : String → Int) (pages : Nat → List ScannedItem) (ms pps : Nat) :
    ((clean_profile_gradually whatif loginOk navOk h pages ms pps).1.sessions_completed
        = (clean_profile_gradually whatif loginOk navOk h pages ms pps).2.1.length ∧
      ∀ i, i + 1 <
          (clean_profile_gradually whatif loginOk navOk h pages ms pps).2.1.length →
        (clean_profile_gradually whatif loginOk navOk h pages ms pps).2.1.getD i 0 ≠ 0) ∧
    ((clean_profile_gradually false true true exHash exPages 3 10).2.1 = [1, 0] ∧
      (clean_profile_gradually false true true exHash exPages 3 10).1.sessions_completed = 2) := by
  refine ⟨?_, by decide, by decide⟩
  unfold clean_profile_gradually
  split_ifs
  · exact ⟨rfl, by simp⟩
  · exact ⟨rfl, by simp⟩
  · obtain ⟨k1, k2⟩ := session_loop_sessions whatif h pages pps ms 0 initStats
    refine ⟨?_, k2⟩
    rw [k1]
    simp [initStats]

/-- C4 witness: the zero-only-last property applied to the first session
of the concrete run, which deleted one post. -/
theorem C4_zero_session_is_last_witness :
    0 + 1 < (clean_profile_gradually false true true exHash exPages 3 10).2.1.length ∧
    (clean_profile_gradually false true true exHash exPages 3 10).2.1.getD 0 0 ≠ 0 :=
  ⟨by decide,
    (C4_zero_session_is_last false true true exHash exPages 3 10).1.2 0 (by decide)⟩

/-- C5 counterexample: a configuration with min_delete_delay = 7 >
3 = max_delete_delay passes validate_config — the function never compares
the delete delay bounds, so the run starts. -/
theorem C5_counterexample :
    exConfigBadDelete.min_delete_delay > exConfigBadDelete.max_delete_delay ∧
    validate_config exConfigBadDelete = (true, "Configuration valid") := by
  decide

/-- C5 amended: validate_config rejects inverted action delay bounds
(min_action_delay > max_action_delay), but performs no check at all on the
delete delay bounds, so a configuration with
min_delete_delay > max_delete_delay is accepted when all other checks pass. -/
theorem C5_action_delay_rejected (c : Config)
    (hc : c.min_action_delay > c.max_action_delay) :
    (validate_config c).1 = false := by
  unfold validate_config
  split_ifs <;> simp_all

/-- C5 witness: the amended theorem applied to a configuration whose
action delay bounds are inverted. -/
theorem C5_action_delay_rejected_witness :
    exConfigBadAction.min_action_delay > exConfigBadAction.max_action_delay ∧
    (validate_config exConfigBadAction).1 = false :=
  ⟨by decide, C5_action_delay_rejected exConfigBadAction (by decide)⟩

/-- C6: whenever the automation engine raises at a stage the attempt
actually reaches, the outcome is Errored — errors_encountered is
incremented by exactly one, the other counters are untouched, the attempt
reports failure (no retry) — and the exception never escapes the per-item
scope: the batch loop runs exactly one attempt per item regardless of
outcomes, always proceeding to the next item. -/
theorem C6_engine_fault_contained (whatif : Bool) (b : ItemBehavior)
    (s : Stats) (hf : faultTriggered whatif b = true) :
    ((attempt_post_deletion whatif b s).1
        = { s with errors_encountered := s.errors_encountered + 1 } ∧
      (attempt_post_deletion whatif b s).2.1 = false) ∧
    ∀ (l : List ScannedItem) (s0 : Stats),
      (process_posts whatif l s0).2.2.length = l.length := by
  refine ⟨?_, fun l s0 => process_posts_trace_length whatif l s0⟩
  rcases b with ⟨mf, df, cf, fault, gone⟩
  cases fault <;> cases whatif <;>
    simp_all [faultTriggered, attempt_post_deletion]

/-- C6 witness: the theorem applied to an engine fault raised while
clicking the menu of a concrete item in real mode. -/
theorem C6_engine_fault_contained_witness :
    faultTriggered false ⟨true, true, true, FaultStage.atMenuClick, false⟩ = true ∧
    (attempt_post_deletion false
        ⟨true, true, true, FaultStage.atMenuClick, false⟩ initStats).2.1 = false :=
  ⟨by decide,
    (C6_engine_fault_contained false
      ⟨true, true, true, FaultStage.atMenuClick, false⟩ initStats (by decide)).1.2⟩

/-- C7: deduplication keeps, for each derived identity (data-testid, else
DOM id, else a hash of the first 50 characters of the visible text), only
the first occurrence — the result is a subsequence of the input whose
identities are pairwise distinct, each survivor is the first input element
with its identity — and it is idempotent. -/
theorem C7_dedupe_first_seen_idempotent (h : String → Int)
    (l : List ScannedItem) :
    (dedupe_aux h [] l).Sublist l ∧
    (dedupe_aux h [] l).Pairwise
      (fun a b => element_id h a ≠ element_id h b) ∧
    (∀ x ∈ dedupe_aux h [] l,
      l.find? (fun y => element_id h y == element_id h x) = some x) ∧
    dedupe_aux h [] (dedupe_aux h [] l) = dedupe_aux h [] l :=
  ⟨dedupe_aux_sublist h l [], dedupe_aux_pairwise h l [],
    fun x hx => dedupe_aux_first h l [] x hx, dedupe_aux_idem h l⟩

/-- C7 witness: the first-occurrence property applied to a concrete list
with two items of identical derived identity. -/
theorem C7_dedupe_witness :
    exItem ∈ dedupe_aux exHash [] [exItem, dupItem] ∧
    List.find? (fun y => element_id exHash y == element_id exHash exItem)
      [exItem, dupItem] = some exItem :=
  ⟨by decide,
    (C7_dedupe_first_seen_idempotent exHash [exItem, dupItem]).2.2.1
      exItem (by decide)⟩

/-- C8: if login fails or navigation to the activity log fails, the run
returns immediately with the statistics accumulated so far (the freshly
initialized counters) as a normal value: no session is executed, the
per-session list and the trace are empty, and sessions_completed is 0. -/
theorem C8_precondition_failure_stops (whatif loginOk navOk : Bool)
    (h : String → Int) (pages : Nat → List ScannedItem) (ms pps : Nat)
    (hpre : loginOk = false ∨ navOk = false) :
    clean_profile_gradually whatif loginOk navOk h pages ms pps
        = (initStats, [], []) ∧
    (clean_profile_gradually whatif loginOk navOk h pages ms pps).1.sessions_completed
        = 0 := by
  have hstop : clean_profile_gradually whatif loginOk navOk h pages ms pps
      = (initStats, [], []) := by
    rcases hpre with rfl | rfl
    · simp [clean_profile_gradually]
    · cases loginOk <;> simp [clean_profile_gradually]
  exact ⟨hstop, by rw [hstop]; rfl⟩

/-- C8 witness: the theorem applied to a run whose login fails. -/
theorem C8_precondition_failure_witness :
    ((false : Bool) = false ∨ (true : Bool) = false) ∧
    clean_profile_gradually true false true exHash exPages 5 10
        = (initStats, [], []) :=
  ⟨Or.inl rfl,
    (C8_precondition_failure_stops true false true exHash exPages 5 10
      (Or.inl rfl)).1⟩

/-- C9: for bounds min ≤ max and any uniform draw u in the unit interval,
the pacing delay lies within the bounds, and for min = max it is exactly
that common value. -/
theorem C9_delay_within_bounds (cfg : Config) (m M u : ℚ)
    (hu0 : 0 ≤ u) (hu1 : u ≤ 1) (hmM : m ≤ M) :
    (m ≤ human_like_delay cfg (Option.some m) (Option.some M) u ∧
      human_like_delay cfg (Option.some m) (Option.some M) u ≤ M) ∧
    (m = M → human_like_delay cfg (Option.some m) (Option.some M) u = m) := by
  unfold human_like_delay py_uniform
  simp only [Option.getD_some]
  refine ⟨⟨?_, ?_⟩, ?_⟩
  · nlinarith
  · nlinarith
  · rintro rfl
    ring

/-- C9 witness: the bounds theorem applied to min 1, max 3, draw 1. -/
theorem C9_delay_within_bounds_witness :
    ((0 : ℚ) ≤ 1 ∧ (1 : ℚ) ≤ 1 ∧ (1 : ℚ) ≤ 3) ∧
    (1 : ℚ) ≤ human_like_delay exConfigBadDelete
        (Option.some 1) (Option.some 3) 1 ∧
    human_like_delay exConfigBadDelete (Option.some 1) (Option.some 3) 1 ≤ 3 :=
  ⟨⟨by decide, by decide, by decide⟩,
    (C9_delay_within_bounds exConfigBadDelete 1 3 1
      (by decide) (by decide) (by decide)).1⟩

/-- C10: the derived deletions-per-minute rate is always well defined —
for a zero elapsed duration the guard makes it 0, and for a positive
duration it equals posts_deleted divided by the duration in minutes. -/
theorem C10_rate_well_defined (s : Stats) (d : ℚ) :
    (d = 0 → (get_final_stats s d).posts_per_minute = 0) ∧
    (0 < d → (get_final_stats s d).posts_per_minute
        = (s.posts_deleted : ℚ) * 60 / d) := by
  constructor
  · rintro rfl
    simp [get_final_stats]
  · intro hd
    simp only [get_final_stats]
    rw [if_pos hd, div_div_eq_mul_div]

/-- C10 witness: the positive-duration formula applied to 4 deletions
over 2 seconds. -/
theorem C10_rate_well_defined_witness :
    (0 : ℚ) < 2 ∧
    (get_final_stats ⟨0, 4, 0, 0, 0⟩ 2).posts_per_minute
        = (((⟨0, 4, 0, 0, 0⟩ : Stats).posts_deleted : ℚ)) * 60 / 2 :=
  ⟨by decide, (C10_rate_well_defined ⟨0, 4, 0, 0, 0⟩ 2).2 (by decide)⟩

end FacebookTimelineCleanup
